import Mathlib

/-!
Shallow embedding of `scripts/update_confluence.py`: a sequential Confluence
client that lists all pages of a space, fetches each page body and version,
and prepends a fixed status banner to every page that does not already
contain the marker substring, writing the result back with version + 1.

HTTP is modelled by an oracle `Server` mapping each request to either a
response or a transport/HTTP error (a raised
`requests.exceptions.RequestException`): a `try/except` block in the source
becomes a `match` on the `Except` result, and `print` output becomes an
explicit list of log lines.
-/

namespace UpdateConfluence

/-- Truth of the Python test `needle == hay[:len(needle)]` on character
lists: used to define substring containment. -/
def startsWith : List Char → List Char → Bool
  | [], _ => true
  | _ :: _, [] => false
  | a :: as, b :: bs => a == b && startsWith as bs

/-- Truth of the Python operator `needle in hay` on character lists:
contiguous substring containment. -/
def listContains (needle : List Char) : List Char → Bool
  | [] => needle == []
  | c :: rest => startsWith needle (c :: rest) || listContains needle rest

/-- Truth of the Python operator `needle in hay` for strings. -/
def pyIn (needle hay : String) : Bool :=
  listContains needle.data hay.data

/-- Configuration constant `CONFLUENCE_BASE_URL` of the script. -/
def CONFLUENCE_BASE_URL : String := "https://altimetrik.atlassian.net/wiki"

/-- Configuration constant `SPACE_KEY` of the script. -/
def SPACE_KEY : String := "PA1"

/-- Marker substring tested inline in `main` (line 292 of the script):
the body is skipped when it already contains this text. -/
def marker : String := "Ingestion &amp; Cleansing Lambda v2.0"

/-- Constant returned by `create_lambda_status_section`: the HTML status
block prepended to each page (transcribed verbatim from the Python string
literal; the two apostrophes are written as the escape x27). -/
def create_lambda_status_section : String :=
  "
<ac:structured-macro ac:name=\"info\">
  <ac:rich-text-body>
    <p><strong>Last Updated:</strong> October 3, 2025</p>
    <p><strong>Author:</strong> Douglas Martins, Senior AI Engineer/Architect</p>
  </ac:rich-text-body>
</ac:structured-macro>

<h2>🚀 Latest Updates - Ingestion &amp; Cleansing Lambda v2.0</h2>

<ac:structured-macro ac:name=\"panel\" ac:schema-version=\"1\">
  <ac:parameter ac:name=\"bgColor\">#deebff</ac:parameter>
  <ac:rich-text-body>
    <p><strong>✅ COMPLETED:</strong> Combined Ingestion &amp; Cleansing Lambda v2.0</p>
    <ul>
      <li>Atomic Bronze → Silver transformation in single transaction</li>
      <li>25 TypeScript modules implementing data engineer\x27s algorithm v0.2</li>
      <li>Two-path processing (NEW insert-only, UPDATED upsert + soft-delete)</li>
      <li>Complete versioning system with affected nodes/attributes tracking</li>
      <li>Comprehensive test suite with sample data generation</li>
    </ul>
  </ac:rich-text-body>
</ac:structured-macro>

<h3>📦 Implementation Summary</h3>

<table>
  <tbody>
    <tr>
      <th>Component</th>
      <th>Status</th>
      <th>Files</th>
      <th>Details</th>
    </tr>
    <tr>
      <td><strong>Type Definitions</strong></td>
      <td><ac:structured-macro ac:name=\"status\"><ac:parameter ac:name=\"color\">Green</ac:parameter><ac:parameter ac:name=\"title\">COMPLETE</ac:parameter></ac:structured-macro></td>
      <td>4 files</td>
      <td>Events, layouts, context, cache</td>
    </tr>
    <tr>
      <td><strong>Utilities</strong></td>
      <td><ac:structured-macro ac:name=\"status\"><ac:parameter ac:name=\"color\">Green</ac:parameter><ac:parameter ac:name=\"title\">COMPLETE</ac:parameter></ac:structured-macro></td>
      <td>3 files</td>
      <td>Normalization (§0), streams, constants</td>
    </tr>
    <tr>
      <td><strong>Parsers</strong></td>
      <td><ac:structured-macro ac:name=\"status\"><ac:parameter ac:name=\"color\">Green</ac:parameter><ac:parameter ac:name=\"title\">COMPLETE</ac:parameter></ac:structured-macro></td>
      <td>4 files</td>
      <td>Excel, API, layout, filename (§2.2, §4)</td>
    </tr>
    <tr>
      <td><strong>Database Queries</strong></td>
      <td><ac:structured-macro ac:name=\"status\"><ac:parameter ac:name=\"color\">Green</ac:parameter><ac:parameter ac:name=\"title\">COMPLETE</ac:parameter></ac:structured-macro></td>
      <td>8 files</td>
      <td>Load, bronze, silver, dictionaries (§6), versioning (§7A.3, §7B.5), reconciliation (§7B.3-4)</td>
    </tr>
    <tr>
      <td><strong>Processors</strong></td>
      <td><ac:structured-macro ac:name=\"status\"><ac:parameter ac:name=\"color\">Green</ac:parameter><ac:parameter ac:name=\"title\">COMPLETE</ac:parameter></ac:structured-macro></td>
      <td>4 files</td>
      <td>S3, API, row processor (§7), orchestrator (§1-§8)</td>
    </tr>
    <tr>
      <td><strong>Test Suite</strong></td>
      <td><ac:structured-macro ac:name=\"status\"><ac:parameter ac:name=\"color\">Green</ac:parameter><ac:parameter ac:name=\"title\">COMPLETE</ac:parameter></ac:structured-macro></td>
      <td>3 files</td>
      <td>Sample data generator, validator, local runner</td>
    </tr>
    <tr>
      <td><strong>Documentation</strong></td>
      <td><ac:structured-macro ac:name=\"status\"><ac:parameter ac:name=\"color\">Green</ac:parameter><ac:parameter ac:name=\"title\">COMPLETE</ac:parameter></ac:structured-macro></td>
      <td>3 files</td>
      <td>Lambda README, log retention strategy, master taxonomy attributes</td>
    </tr>
  </tbody>
</table>

<h3>🎯 Key Technical Features</h3>

<ac:structured-macro ac:name=\"expand\">
  <ac:parameter ac:name=\"title\">Technical Implementation Details</ac:parameter>
  <ac:rich-text-body>
    <h4>Two-Path Processing Logic</h4>
    <ul>
      <li><strong>NEW Load:</strong> Insert-only, no reactivation, creates Version 1</li>
      <li><strong>UPDATED Load:</strong> Upsert with soft-delete reconciliation, creates Version N</li>
    </ul>

    <h4>Natural Key Constraints (Case-Insensitive)</h4>
    <ul>
      <li><strong>Nodes:</strong> (taxonomy_id, node_type_id, customer_id, LOWER(value))</li>
      <li><strong>Attributes:</strong> (node_id, attribute_type_id, LOWER(value))</li>
    </ul>

    <h4>Append-Only Dictionaries</h4>
    <ul>
      <li>silver_taxonomies_nodes_types - never modified, only INSERT</li>
      <li>silver_taxonomies_attribute_types - never modified, only INSERT</li>
    </ul>

    <h4>Complete Audit Trail</h4>
    <ul>
      <li>Row-level lineage with load_id and row_id</li>
      <li>Row-level error tracking in load_details JSON</li>
      <li>Version history with affected nodes/attributes</li>
    </ul>
  </ac:rich-text-body>
</ac:structured-macro>

<h3>📊 Project Status</h3>

<ac:structured-macro ac:name=\"status\"><ac:parameter ac:name=\"color\">Green</ac:parameter><ac:parameter ac:name=\"title\">90% COMPLETE</ac:parameter></ac:structured-macro>

<p><strong>GitHub Repository:</strong> <a href=\"https://github.com/AltimetrikAI/propelus_ai\">https://github.com/AltimetrikAI/propelus_ai</a></p>

<p><strong>Latest Commits:</strong></p>
<ul>
  <li><code>80b67bf</code> - Add all implementation modules (21 files, 1,389 lines)</li>
  <li><code>0100a6d</code> - Combined Ingestion &amp; Cleansing Lambda v2.0 (14 files, 2,551 lines)</li>
</ul>

<h3>⏳ Next Steps</h3>

<ac:structured-macro ac:name=\"panel\" ac:schema-version=\"1\">
  <ac:parameter ac:name=\"bgColor\">#fffae6</ac:parameter>
  <ac:rich-text-body>
    <ol>
      <li><strong>Database Migrations</strong> - Awaiting physical data model from Marcin (Monday)</li>
      <li><strong>Integration Testing</strong> - Test with sample taxonomies (Social Work, Nurse Practitioners)</li>
      <li><strong>Tuesday Walkthrough</strong> - Demo with Kristen\x27s sample data</li>
      <li><strong>Step Functions Update</strong> - Modify workflow to call combined Lambda</li>
    </ol>
  </ac:rich-text-body>
</ac:structured-macro>

<h3>📚 Documentation</h3>

<ul>
  <li><a href=\"https://github.com/AltimetrikAI/propelus_ai/blob/main/lambdas/ingestion_and_cleansing/README.md\">Lambda README</a> - Architecture and usage guide</li>
  <li><a href=\"https://github.com/AltimetrikAI/propelus_ai/blob/main/docs/LOG_RETENTION_STRATEGY.md\">Log Retention Strategy</a> - Audit log compliance approach</li>
  <li><a href=\"https://github.com/AltimetrikAI/propelus_ai/blob/main/lambdas/ingestion_and_cleansing/test/README.md\">Test Suite README</a> - Sample data generation and testing</li>
  <li><a href=\"https://github.com/AltimetrikAI/propelus_ai/blob/main/PROJECT_DOCUMENTATION.md\">Project Documentation</a> - Complete system architecture</li>
</ul>

<hr/>
"

/-- Fields of a listing result entry that `main` reads:
`id` and `title` of each `results` element. -/
structure PageRec where
  id : String
  title : String
  deriving DecidableEq, Repr

/-- Fields of a full page response that `main` reads:
the version number and the storage body value of the response. -/
structure FullPage where
  version : Nat
  body : String
  deriving DecidableEq, Repr

/-- One listing response: the `results` array and the optional
`_links.next` continuation reference. -/
structure ListResp where
  results : List PageRec
  next : Option String
  deriving DecidableEq, Repr

/-- Data of a raised `requests.exceptions.RequestException`: its printed
message and, when the server answered, the response text
(`e.response.text`, absent for pure transport failures). -/
structure HttpErr where
  msg : String
  responseText : Option String
  deriving DecidableEq, Repr

/-- The field `version` of the PUT payload built by `update_page`. -/
structure PayloadVersion where
  number : Nat
  message : String
  deriving DecidableEq, Repr

/-- The field `storage` inside the field `body` of the PUT payload. -/
structure StorageBody where
  value : String
  representation : String
  deriving DecidableEq, Repr

/-- The field `body` of the PUT payload. -/
structure PayloadBody where
  storage : StorageBody
  deriving DecidableEq, Repr

/-- A PUT request issued by `update_page`: the target page id (the `id`
component of the request URL) together with the JSON payload. -/
structure UpdateRequest where
  pageId : String
  version : PayloadVersion
  title : String
  type : String
  body : PayloadBody
  deriving DecidableEq, Repr

/-- Deterministic HTTP oracle giving the behaviour of the remote service,
one function per request shape the script makes. An `Except.error e`
result models a raised `RequestException` (transport failure or
`raise_for_status` on a non-2xx response). -/
structure Server where
  listResp : String → Except HttpErr ListResp
  pageContent : String → Except HttpErr FullPage
  putResult : UpdateRequest → Except HttpErr Unit

/-- URL of the first listing request,
`CONFLUENCE_BASE_URL ++ initial path` (the `spaceKey`, `limit`
and `expand` query parameters accompany only this first request and are
part of the behaviour of the oracle at this URL). -/
def initialListUrl : String := CONFLUENCE_BASE_URL ++ "/rest/api/content"

/-- The `while True` loop inside the `try` of `get_all_pages_in_space`:
request `url`, extend the accumulator with `results`, follow `_links.next`
resolved against `CONFLUENCE_BASE_URL` until absent. An error propagates
to the surrounding handler. `fuel` bounds the number of requests; on a
server whose continuation chain is finite it is never exhausted. -/
def listLoop (s : Server) : Nat → String → List PageRec → Except HttpErr (List PageRec)
  | 0, _, acc => Except.ok acc
  | fuel + 1, url, acc =>
    match s.listResp url with
    | Except.error e => Except.error e
    | Except.ok r =>
      match r.next with
      | some nxt => listLoop s fuel (CONFLUENCE_BASE_URL ++ nxt) (acc ++ r.results)
      | none => Except.ok (acc ++ r.results)

/-- Embeds `get_all_pages_in_space`: run the listing loop; on a
`RequestException` print the error and return the empty list. Returns the
collected pages together with the printed log lines. -/
def get_all_pages_in_space (s : Server) (fuel : Nat) : List PageRec × List String :=
  match listLoop s fuel initialListUrl [] with
  | Except.ok pages => (pages, [])
  | Except.error e => ([], ["Error fetching pages: " ++ e.msg])

/-- Embeds `get_page_content`: fetch the full page; on a
`RequestException` print the error and return the absent value (the empty
dict of the source, which the caller tests for falsiness). -/
def get_page_content (s : Server) (page_id : String) : Option FullPage × List String :=
  match s.pageContent page_id with
  | Except.ok p => (some p, [])
  | Except.error e => (none, ["Error fetching page " ++ page_id ++ ": " ++ e.msg])

/-- The PUT payload built by `update_page` from its four arguments. -/
def updatePayload (page_id title content : String) (version : Nat) : UpdateRequest :=
  { pageId := page_id
    version := { number := version + 1
                 message := "Updated with latest Lambda implementation status" }
    title := title
    type := "page"
    body := { storage := { value := content, representation := "storage" } } }

/-- Embeds `update_page`: issue the PUT built by `updatePayload`; return
whether it succeeded, plus the printed log lines (on failure the error,
and the response text of the server when present). -/
def update_page (s : Server) (page_id title content : String) (version : Nat) :
    Bool × List String :=
  match s.putResult (updatePayload page_id title content version) with
  | Except.ok _ => (true, ["✅ Updated page: " ++ title])
  | Except.error e =>
    (false, ["❌ Error updating page " ++ title ++ ": " ++ e.msg] ++
      (match e.responseText with
       | some t => ["   Response: " ++ t]
       | none => []))

/-- A request issued during the run: a page fetch (GET of one page id) or
an update (PUT of an `UpdateRequest`). Listing requests are accounted
separately by `get_all_pages_in_space`. -/
inductive Action where
  | fetch (pageId : String)
  | put (req : UpdateRequest)
  deriving DecidableEq, Repr

/-- One iteration of the `for page in pages` loop of `main`: fetch the
full page (on failure `continue`); skip when the body already contains
`marker`; otherwise prepend the status section and issue the update.
Returns the requests issued for this page and the log lines printed. -/
def processPage (s : Server) (lambda_status_content : String) (page : PageRec) :
    List Action × List String :=
  match get_page_content s page.id with
  | (none, log) => ([Action.fetch page.id], log)
  | (some full, log) =>
    if pyIn marker full.body then
      ([Action.fetch page.id],
       log ++ ["⏭️  Skipping " ++ page.title ++ " (already has latest update)"])
    else
      let updated_content := lambda_status_content ++ "\n\n" ++ full.body
      let result := update_page s page.id page.title updated_content full.version
      ([Action.fetch page.id, Action.put (updatePayload page.id page.title updated_content full.version)],
       log ++ result.2 ++
         (if result.1 then
            ["   Version: " ++ toString full.version ++ " → " ++ toString (full.version + 1)]
          else []))

/-- Outcome of a run of `main`: the fetch and update requests issued, in
order, and the log lines printed (the purely decorative banner lines of
`main` are elided; every data-bearing line is kept). -/
structure RunOut where
  actions : List Action
  log : List String
  deriving DecidableEq, Repr

/-- Embeds `main`: list the pages of the space; when none are found (also
after a listing error) report and stop; otherwise process each page in
order with `processPage`, using the constant status section. -/
def main (s : Server) (fuel : Nat) : RunOut :=
  match get_all_pages_in_space s fuel with
  | (pages, llog) =>
    if pages.isEmpty then
      { actions := [], log := llog ++ ["❌ No pages found or error occurred"] }
    else
      let per := pages.map (processPage s create_lambda_status_section)
      { actions := (per.map Prod.fst).flatten
        log := llog ++ (per.map Prod.snd).flatten }

/-- Continuation chain of the server seen from `url`: the `results` lists
of the successive responses when, within `n` requests, the server answers
every request and eventually reports no further page. `none` when the
chain errors or does not finish within `n` requests. -/
def chainResults (s : Server) : Nat → String → Option (List (List PageRec))
  | 0, _ => none
  | n + 1, url =>
    match s.listResp url with
    | Except.error _ => none
    | Except.ok r =>
      match r.next with
      | none => some [r.results]
      | some nxt =>
        (chainResults s n (CONFLUENCE_BASE_URL ++ nxt)).map
          (fun rest => r.results :: rest)

/-- The update requests contained in a trace, in order. -/
def putRequests (acts : List Action) : List UpdateRequest :=
  acts.filterMap (fun a =>
    match a with
    | Action.put r => some r
    | Action.fetch _ => none)

/-- The update requests issued for one page id. -/
def putsFor (pid : String) (acts : List Action) : List UpdateRequest :=
  (putRequests acts).filter (fun r => r.pageId == pid)

/-- A page as stored by the remote service. -/
structure StoredPage where
  id : String
  title : String
  version : Nat
  body : String
  deriving DecidableEq, Repr

/-- First stored page carrying the given id. -/
def lookupPage (store : List StoredPage) (pid : String) : Option StoredPage :=
  store.find? (fun sp => sp.id == pid)

/-- Fixture server backed by `store`: the listing answers the initial URL
with every page in a single response, fetching a page id returns its
stored body and version, and every write succeeds. -/
def serverOfStore (store : List StoredPage) : Server :=
  { listResp := fun url =>
      if url = initialListUrl then
        Except.ok { results := store.map (fun sp => { id := sp.id, title := sp.title })
                    next := none }
      else
        Except.error { msg := "unknown url", responseText := none }
    pageContent := fun pid =>
      match lookupPage store pid with
      | some sp => Except.ok { version := sp.version, body := sp.body }
      | none => Except.error { msg := "page not found", responseText := none }
    putResult := fun _ => Except.ok () }

/-- Effect of the issued updates on one stored page: a page targeted by a
request takes the submitted body and version number of that request; id and
title are never changed, and an untargeted page keeps all its fields. -/
def applyPutsTo (reqs : List UpdateRequest) (sp : StoredPage) : StoredPage :=
  match reqs.find? (fun r => r.pageId == sp.id) with
  | some r =>
    { id := sp.id, title := sp.title
      version := r.version.number, body := r.body.storage.value }
  | none => sp

/-- Server state after the issued updates are applied to every page. -/
def applyPuts (reqs : List UpdateRequest) (store : List StoredPage) : List StoredPage :=
  store.map (applyPutsTo reqs)

/-- A Python exception: a `requests.exceptions.RequestException` carrying
its data, or any other exception. The handlers of the script catch
exactly the first kind. -/
inductive PyExc where
  | request (e : HttpErr)
  | other (msg : String)
  deriving DecidableEq, Repr

/-- Semantics of `try body except RequestException as e: handler(e)`:
request exceptions are caught, anything else keeps propagating. -/
def catchRequest {α : Type} (body : Except PyExc α) (handler : HttpErr → α) :
    Except PyExc α :=
  match body with
  | Except.ok a => Except.ok a
  | Except.error (PyExc.request e) => Except.ok (handler e)
  | Except.error (PyExc.other m) => Except.error (PyExc.other m)

/-- An HTTP call seen at the exception level: its error is raised as a
`RequestException`. -/
def liftHttp {α : Type} : Except HttpErr α → Except PyExc α
  | Except.ok a => Except.ok a
  | Except.error e => Except.error (PyExc.request e)

/-- Exception-level semantics of `get_all_pages_in_space`: the listing
loop runs inside `try`, its handler catches request exceptions only. -/
def get_all_pagesE (s : Server) (fuel : Nat) :
    Except PyExc (List PageRec × List String) :=
  catchRequest ((liftHttp (listLoop s fuel initialListUrl [])).map (fun ps => (ps, [])))
    (fun e => ([], ["Error fetching pages: " ++ e.msg]))

/-- Exception-level semantics of `get_page_content`. -/
def get_page_contentE (s : Server) (page_id : String) :
    Except PyExc (Option FullPage × List String) :=
  catchRequest ((liftHttp (s.pageContent page_id)).map (fun p => (some p, [])))
    (fun e => (none, ["Error fetching page " ++ page_id ++ ": " ++ e.msg]))

/-- Exception-level semantics of `update_page`. -/
def update_pageE (s : Server) (page_id title content : String) (version : Nat) :
    Except PyExc (Bool × List String) :=
  catchRequest
    ((liftHttp (s.putResult (updatePayload page_id title content version))).map
      (fun _ => (true, ["✅ Updated page: " ++ title])))
    (fun e =>
      (false, ["❌ Error updating page " ++ title ++ ": " ++ e.msg] ++
        (match e.responseText with
         | some t => ["   Response: " ++ t]
         | none => [])))

/-- Exception-level semantics of one iteration of the page loop of
`main`: an uncaught exception of a callee propagates through the
`Except.error` arms. -/
def processPageE (s : Server) (lambda_status_content : String) (page : PageRec) :
    Except PyExc (List Action × List String) :=
  match get_page_contentE s page.id with
  | Except.error exc => Except.error exc
  | Except.ok (none, log) => Except.ok ([Action.fetch page.id], log)
  | Except.ok (some full, log) =>
    if pyIn marker full.body then
      Except.ok ([Action.fetch page.id],
        log ++ ["⏭️  Skipping " ++ page.title ++ " (already has latest update)"])
    else
      let updated_content := lambda_status_content ++ "\n\n" ++ full.body
      match update_pageE s page.id page.title updated_content full.version with
      | Except.error exc => Except.error exc
      | Except.ok result =>
        Except.ok ([Action.fetch page.id,
            Action.put (updatePayload page.id page.title updated_content full.version)],
          log ++ result.2 ++
            (if result.1 then
               ["   Version: " ++ toString full.version ++ " → " ++
                 toString (full.version + 1)]
             else []))

/-- Exception-level semantics of the page loop of `main`: the per-page
results in order; an uncaught exception of any iteration propagates. -/
def runPagesE (s : Server) (lambda_status_content : String) :
    List PageRec → Except PyExc (List (List Action × List String))
  | [] => Except.ok []
  | q :: rest =>
    match processPageE s lambda_status_content q with
    | Except.error exc => Except.error exc
    | Except.ok out =>
      match runPagesE s lambda_status_content rest with
      | Except.error exc => Except.error exc
      | Except.ok outs => Except.ok (out :: outs)

/-- Exception-level semantics of `main`: an uncaught exception anywhere in
the run would surface as an `Except.error` of this computation. -/
def mainE (s : Server) (fuel : Nat) : Except PyExc RunOut :=
  match get_all_pagesE s fuel with
  | Except.error exc => Except.error exc
  | Except.ok (pages, llog) =>
    if pages.isEmpty then
      Except.ok { actions := [], log := llog ++ ["❌ No pages found or error occurred"] }
    else
      match runPagesE s create_lambda_status_section pages with
      | Except.error exc => Except.error exc
      | Except.ok per =>
        Except.ok { actions := (per.map Prod.fst).flatten
                    log := llog ++ (per.map Prod.snd).flatten }

/-- The update request the page loop issues for one listing entry: none
when the fetch fails or the fetched body already contains the marker,
otherwise the payload built from the entry and the fetched page. Used to
characterise the request trace of `main`. -/
def requestFor (s : Server) (lambda_status_content : String) (page : PageRec) :
    Option UpdateRequest :=
  match s.pageContent page.id with
  | Except.error _ => none
  | Except.ok full =>
    if pyIn marker full.body then none
    else
      some (updatePayload page.id page.title
        (lambda_status_content ++ "\n\n" ++ full.body) full.version)

/-- Fixture page without the marker (the Page A of the example scenario of the spec). -/
def demoA : StoredPage :=
  { id := "1001", title := "Page A", version := 3, body := "<p>old</p>" }

/-- Fixture page whose body already contains the marker (the Page B of the example scenario of the spec). -/
def demoB : StoredPage :=
  { id := "1002", title := "Page B", version := 5, body := "x " ++ marker ++ " y" }

/-- Fixture store holding the two example pages. -/
def demoStore : List StoredPage := [demoA, demoB]

/-- Fixture server backed by `demoStore`. -/
def demoServer : Server := serverOfStore demoStore

/-- Fixture server on which every request fails (listing, fetch, and
write; the write failure carries a server response text). -/
def failServer : Server :=
  { listResp := fun _ => Except.error { msg := "boom", responseText := none }
    pageContent := fun _ => Except.error { msg := "boom", responseText := none }
    putResult := fun _ => Except.error { msg := "boom", responseText := some "srv text" } }

/-- Fixture server that lists the two example pages but fails every fetch
of the first one. -/
def fetchFailServer : Server :=
  { listResp := (serverOfStore demoStore).listResp
    pageContent := fun pid =>
      if pid = "1001" then Except.error { msg := "down", responseText := none }
      else (serverOfStore demoStore).pageContent pid
    putResult := fun _ => Except.ok () }

/-- Fixture server whose listing spans two continuation responses. -/
def pagedServer : Server :=
  { listResp := fun url =>
      if url = initialListUrl then
        Except.ok { results := [{ id := "1", title := "A" }]
                    next := some "/rest/api/content?cursor=p2" }
      else if url = CONFLUENCE_BASE_URL ++ "/rest/api/content?cursor=p2" then
        Except.ok { results := [{ id := "2", title := "B" }], next := none }
      else
        Except.error { msg := "unknown url", responseText := none }
    pageContent := fun _ => Except.error { msg := "not found", responseText := none }
    putResult := fun _ => Except.ok () }

/-- A prefix test surviving extension of the scanned list on the right. -/
theorem startsWith_append_right (n : List Char) :
    ∀ l t : List Char, startsWith n l = true → startsWith n (l ++ t) = true := by
  induction n with
  | nil => intro l t _; rfl
  | cons a as ih =>
    intro l t h
    cases l with
    | nil => simp [startsWith] at h
    | cons b bs =>
      simp only [startsWith, Bool.and_eq_true] at h
      simp only [List.cons_append, startsWith, Bool.and_eq_true]
      exact ⟨h.1, ih bs t h.2⟩

/-- Every list is a prefix of itself extended on the right. -/
theorem startsWith_self_append (n : List Char) :
    ∀ t : List Char, startsWith n (n ++ t) = true := by
  induction n with
  | nil => intro t; rfl
  | cons a as ih =>
    intro t
    simp only [List.cons_append, startsWith, Bool.and_eq_true]
    exact ⟨by simp, ih t⟩

/-- Containment survives extension of the scanned list on the right. -/
theorem listContains_append_of_left (n : List Char) :
    ∀ a b : List Char, listContains n a = true → listContains n (a ++ b) = true := by
  intro a
  induction a with
  | nil =>
    intro b h
    have hn : n = [] := eq_of_beq (by simpa [listContains] using h)
    subst hn
    cases b with
    | nil => rfl
    | cons c cs => rfl
  | cons c cs ih =>
    intro b h
    simp only [listContains, Bool.or_eq_true] at h
    simp only [List.cons_append, listContains, Bool.or_eq_true]
    cases h with
    | inl h => exact Or.inl (startsWith_append_right n (c :: cs) b h)
    | inr h => exact Or.inr (ih b h)

/-- Python containment survives appending on the right of the scanned
string. -/
theorem pyIn_append_of_left (m a b : String) (h : pyIn m a = true) :
    pyIn m (a ++ b) = true := by
  unfold pyIn at h ⊢
  rw [String.data_append]
  exact listContains_append_of_left m.data a.data b.data h

set_option maxRecDepth 10000 in
/-- The marker substring occurs in the constant status block. -/
theorem marker_in_status : pyIn marker create_lambda_status_section = true := by
  decide

/-- Every body built by prepending the status block contains the marker. -/
theorem marker_in_prepended (b : String) :
    pyIn marker (create_lambda_status_section ++ "\n\n" ++ b) = true :=
  pyIn_append_of_left _ _ b
    (pyIn_append_of_left _ _ "\n\n" marker_in_status)

/-- The update requests of a concatenated trace. -/
theorem putRequests_append (a b : List Action) :
    putRequests (a ++ b) = putRequests a ++ putRequests b := by
  unfold putRequests
  exact List.filterMap_append a b _

/-- The update requests of the flattened per-element traces. -/
theorem putRequests_flatten_map {α : Type} (F : α → List Action) (l : List α) :
    putRequests (l.map F).flatten = (l.map (fun x => putRequests (F x))).flatten := by
  induction l with
  | nil => rfl
  | cons a t ih =>
    simp only [List.map_cons, List.flatten_cons, putRequests_append, ih]

/-- Flattening singleton-or-empty traces is filtering the options. -/
theorem flatten_map_toList {α β : Type} (g : α → Option β) (l : List α) :
    (l.map (fun x => (g x).toList)).flatten = l.filterMap g := by
  induction l with
  | nil => rfl
  | cons a t ih =>
    cases h : g a with
    | none => simp [h, ih, List.filterMap_cons]
    | some r => simp [h, ih, List.filterMap_cons]

/-- The page loop issues for one entry exactly the request described by
`requestFor`. -/
theorem putRequests_processPage (s : Server) (st : String) (q : PageRec) :
    putRequests (processPage s st q).1 = (requestFor s st q).toList := by
  unfold processPage requestFor get_page_content
  cases hc : s.pageContent q.id with
  | error e => rfl
  | ok full =>
    by_cases hm : pyIn marker full.body
    · simp only [hm, if_true]
      rfl
    · simp only [hm, if_false]
      rfl

/-- Actions of `main`: empty when no pages were listed, otherwise the
concatenation of the per-page traces in listing order. -/
theorem main_actions (s : Server) (fuel : Nat) :
    (main s fuel).actions =
      if (get_all_pages_in_space s fuel).1.isEmpty then []
      else ((get_all_pages_in_space s fuel).1.map
        (fun q => (processPage s create_lambda_status_section q).1)).flatten := by
  rcases hg : get_all_pages_in_space s fuel with ⟨pages, llog⟩
  simp only [main, hg]
  by_cases hp : pages.isEmpty
  · simp [hp]
  · simp only [hp, if_false, Bool.false_eq_true, List.map_map]
    rfl

/-- The update requests of a whole run, page by page. -/
theorem putRequests_main (s : Server) (fuel : Nat) :
    putRequests (main s fuel).actions =
      (get_all_pages_in_space s fuel).1.filterMap
        (requestFor s create_lambda_status_section) := by
  rw [main_actions]
  by_cases hp : (get_all_pages_in_space s fuel).1.isEmpty
  · rw [if_pos hp]
    rw [List.isEmpty_iff] at hp
    rw [hp]
    rfl
  · rw [if_neg hp, putRequests_flatten_map]
    have h1 : ((get_all_pages_in_space s fuel).1.map
        (fun q => putRequests ((processPage s create_lambda_status_section q).1))) =
        ((get_all_pages_in_space s fuel).1.map
          (fun q => (requestFor s create_lambda_status_section q).toList)) := by
      apply List.map_congr_left
      intro q _
      exact putRequests_processPage s create_lambda_status_section q
    rw [h1, flatten_map_toList]

/-- Anatomy of an issued request: it comes from a successfully fetched,
unmarked page of the listing and is the payload built from that entry
and fetch. -/
theorem requestFor_eq_some (s : Server) (st : String) (q : PageRec)
    (r : UpdateRequest) (h : requestFor s st q = some r) :
    ∃ full : FullPage, s.pageContent q.id = Except.ok full ∧
      pyIn marker full.body = false ∧
      r = updatePayload q.id q.title (st ++ "\n\n" ++ full.body) full.version := by
  revert h
  unfold requestFor
  cases hc : s.pageContent q.id with
  | error e =>
    intro h
    simp at h
  | ok full =>
    intro h
    dsimp only at h
    split at h
    · exact absurd h (by simp)
    · rename_i hm
      exact ⟨full, rfl, by simpa using hm, (Option.some.inj h).symm⟩

/-- In a list with exactly one element satisfying a predicate, any two
satisfying members are equal. -/
theorem countP_one_unique {α : Type} (P : α → Bool) :
    ∀ (l : List α) (p q : α), l.countP P = 1 → p ∈ l → P p = true →
      q ∈ l → P q = true → q = p := by
  intro l
  induction l with
  | nil =>
    intro p q _ hp
    exact absurd hp (List.not_mem_nil p)
  | cons a t ih =>
    intro p q hc hp hPp hq hPq
    rw [List.countP_cons] at hc
    by_cases hPa : P a = true
    · have ht : t.countP P = 0 := by
        rw [if_pos hPa] at hc
        omega
      have hall := List.countP_eq_zero.mp ht
      have hp' : p = a := by
        rcases List.mem_cons.mp hp with h | h
        · exact h
        · exact absurd hPp (by simpa using hall p h)
      have hq' : q = a := by
        rcases List.mem_cons.mp hq with h | h
        · exact h
        · exact absurd hPq (by simpa using hall q h)
      rw [hp', hq']
    · have hPa' : P a = false := by simpa using hPa
      have ht : t.countP P = 1 := by
        rw [if_neg hPa] at hc
        omega
      have hp' : p ∈ t := by
        rcases List.mem_cons.mp hp with h | h
        · rw [h] at hPp
          rw [hPp] at hPa'
          cases hPa'
        · exact h
      have hq' : q ∈ t := by
        rcases List.mem_cons.mp hq with h | h
        · rw [h] at hPq
          rw [hPq] at hPa'
          cases hPa'
        · exact h
      exact ih p q ht hp' hPp hq' hPq

/-- Flattening per-element lists when exactly one element satisfies the
predicate, yields the list of that element. -/
theorem flatten_countP_one {α β : Type} (P : α → Bool) (F : α → List β) (res : List β) :
    ∀ l : List α, l.countP P = 1 →
      (∀ q ∈ l, P q = true → F q = res) →
      (∀ q ∈ l, P q = false → F q = []) →
      (l.map F).flatten = res := by
  intro l
  induction l with
  | nil =>
    intro h
    rw [List.countP_nil] at h
    omega
  | cons a t ih =>
    intro hc htrue hfalse
    rw [List.countP_cons] at hc
    by_cases hPa : P a = true
    · have ht : t.countP P = 0 := by
        rw [if_pos hPa] at hc
        omega
      have hFa := htrue a (by simp) hPa
      have hall := List.countP_eq_zero.mp ht
      have hrest : (t.map F).flatten = [] := by
        apply List.flatten_eq_nil_iff.mpr
        intro x hx
        rcases List.mem_map.mp hx with ⟨q, hq, hxq⟩
        rw [← hxq]
        exact hfalse q (by simp [hq]) (by simpa using hall q hq)
      simp [hFa, hrest]
    · have hPa' : P a = false := by simpa using hPa
      have ht : t.countP P = 1 := by
        rw [if_neg hPa] at hc
        omega
      have hFa := hfalse a (by simp) hPa'
      simp only [List.map_cons, List.flatten_cons, hFa, List.nil_append]
      exact ih ht (fun q hq => htrue q (by simp [hq]))
        (fun q hq => hfalse q (by simp [hq]))

/-- Filtering a flattened map elementwise. -/
theorem filter_flatten_map {α β : Type} (pred : β → Bool) (F : α → List β)
    (l : List α) :
    ((l.map F).flatten).filter pred = (l.map (fun x => (F x).filter pred)).flatten := by
  induction l with
  | nil => rfl
  | cons a t ih =>
    simp only [List.map_cons, List.flatten_cons, List.filter_append, ih]

/-- The update requests of a run for one page id, as a filter over the
per-page requests. -/
theorem putsFor_main (s : Server) (fuel : Nat) (pid : String) :
    putsFor pid (main s fuel).actions =
      ((get_all_pages_in_space s fuel).1.map
        (fun q => ((requestFor s create_lambda_status_section q).toList).filter
          (fun r => r.pageId == pid))).flatten := by
  unfold putsFor
  rw [putRequests_main, ← flatten_map_toList, filter_flatten_map]

/-- The request computed for a successfully fetched page without the
marker. -/
theorem requestFor_of_ok (s : Server) (st : String) (p : PageRec) (full : FullPage)
    (hfetch : s.pageContent p.id = Except.ok full)
    (hnomark : pyIn marker full.body = false) :
    requestFor s st p =
      some (updatePayload p.id p.title (st ++ "\n\n" ++ full.body) full.version) := by
  unfold requestFor
  rw [hfetch]
  dsimp only
  rw [if_neg (by simp [hnomark])]

/-- Core of the per-page contract: when page `p` is listed exactly once,
its fetch succeeds and the body lacks the marker, the run issues exactly
one update for `p`, carrying the prepended body and the fetched data. -/
theorem update_for_unmarked (s : Server) (fuel : Nat) (p : PageRec) (full : FullPage)
    (hmem : p ∈ (get_all_pages_in_space s fuel).1)
    (hcount : (get_all_pages_in_space s fuel).1.countP (fun q => q.id == p.id) = 1)
    (hfetch : s.pageContent p.id = Except.ok full)
    (hnomark : pyIn marker full.body = false) :
    putsFor p.id (main s fuel).actions =
      [updatePayload p.id p.title
        (create_lambda_status_section ++ "\n\n" ++ full.body) full.version] := by
  rw [putsFor_main]
  apply flatten_countP_one (fun q => q.id == p.id) _ _ _ hcount
  · intro q hq hPq
    have hqp : q = p :=
      countP_one_unique _ _ p q hcount hmem (by simp) hq hPq
    rw [hqp]
    rw [requestFor_of_ok s _ p full hfetch hnomark]
    simp [updatePayload]
  · intro q hq hPq
    cases hr : requestFor s create_lambda_status_section q with
    | none => rfl
    | some r =>
      rcases requestFor_eq_some s _ q r hr with ⟨f2, _, _, hrEq⟩
      have hrid : r.pageId = q.id := by rw [hrEq]; rfl
      simp [Option.toList, List.filter_cons, hrid, hPq]

/-- Under distinct page ids, looking up the id of a member finds that member. -/
theorem lookupPage_of_nodup :
    ∀ store : List StoredPage, (store.map StoredPage.id).Nodup →
      ∀ sp ∈ store, lookupPage store sp.id = some sp := by
  intro store
  induction store with
  | nil =>
    intro _ sp h
    exact absurd h (List.not_mem_nil sp)
  | cons a t ih =>
    intro hnd sp hsp
    rw [List.map_cons, List.nodup_cons] at hnd
    rcases List.mem_cons.mp hsp with h | h
    · subst h
      unfold lookupPage
      exact List.find?_cons_of_pos t (by simp)
    · have hne : a.id ≠ sp.id := fun he =>
        hnd.1 (he ▸ List.mem_map_of_mem StoredPage.id h)
      unfold lookupPage
      rw [List.find?_cons_of_neg t (by simp [hne])]
      exact ih hnd.2 sp h

/-- Under distinct page ids, two members sharing an id are equal. -/
theorem stored_eq_of_id_eq (store : List StoredPage)
    (hnd : (store.map StoredPage.id).Nodup) (sp p : StoredPage)
    (hsp : sp ∈ store) (hp : p ∈ store) (hid : sp.id = p.id) : sp = p := by
  have h1 := lookupPage_of_nodup store hnd sp hsp
  have h2 := lookupPage_of_nodup store hnd p hp
  rw [hid, h2] at h1
  exact (Option.some.inj h1).symm

/-- Fetching a stored page on the fixture server. -/
theorem serverOfStore_pageContent (store : List StoredPage)
    (hnd : (store.map StoredPage.id).Nodup) (sp : StoredPage) (hsp : sp ∈ store) :
    (serverOfStore store).pageContent sp.id =
      Except.ok { version := sp.version, body := sp.body } := by
  unfold serverOfStore
  dsimp only
  rw [lookupPage_of_nodup store hnd sp hsp]

/-- The fixture listing returns every stored page in order. -/
theorem serverOfStore_pages (store : List StoredPage) (fuel : Nat) (hfuel : 1 ≤ fuel) :
    get_all_pages_in_space (serverOfStore store) fuel =
      (store.map (fun sp => { id := sp.id, title := sp.title }), []) := by
  cases fuel with
  | zero => omega
  | succ f =>
    have hresp : (serverOfStore store).listResp initialListUrl =
        Except.ok { results := store.map (fun sp => { id := sp.id, title := sp.title })
                    next := none } := by
      unfold serverOfStore
      dsimp only
      rw [if_pos rfl]
    simp only [get_all_pages_in_space, listLoop, hresp]
    rw [List.nil_append]

/-- Applying updates never changes the id of a page. -/
theorem applyPutsTo_id (reqs : List UpdateRequest) (sp : StoredPage) :
    (applyPutsTo reqs sp).id = sp.id := by
  unfold applyPutsTo
  cases reqs.find? (fun r => r.pageId == sp.id) <;> rfl

/-- Applying updates never changes the title of a page. -/
theorem applyPutsTo_title (reqs : List UpdateRequest) (sp : StoredPage) :
    (applyPutsTo reqs sp).title = sp.title := by
  unfold applyPutsTo
  cases reqs.find? (fun r => r.pageId == sp.id) <;> rfl

/-- Looking a page up after the updates are applied. -/
theorem lookupPage_applyPuts (reqs : List UpdateRequest) (store : List StoredPage)
    (pid : String) :
    lookupPage (applyPuts reqs store) pid =
      (lookupPage store pid).map (applyPutsTo reqs) := by
  unfold lookupPage applyPuts
  rw [List.find?_map]
  have hfun : ((fun sp : StoredPage => sp.id == pid) ∘ applyPutsTo reqs) =
      (fun sp : StoredPage => sp.id == pid) := by
    funext sp
    simp [Function.comp, applyPutsTo_id]
  rw [hfun]

/-- Every update request a run issues has a body containing the marker. -/
theorem run_requests_marked (s : Server) (fuel : Nat) (r : UpdateRequest)
    (hr : r ∈ putRequests (main s fuel).actions) :
    pyIn marker r.body.storage.value = true := by
  rw [putRequests_main] at hr
  rcases List.mem_filterMap.mp hr with ⟨q, _, hreq⟩
  rcases requestFor_eq_some s _ q r hreq with ⟨full, _, _, hrEq⟩
  rw [hrEq]
  exact marker_in_prepended full.body

/-- A page whose fetch fails receives no update in the whole run. -/
theorem putsFor_nil_of_fetch_fail (s : Server) (fuel : Nat) (pid : String)
    (e : HttpErr) (herr : s.pageContent pid = Except.error e) :
    putsFor pid (main s fuel).actions = [] := by
  rw [putsFor_main]
  apply List.flatten_eq_nil_iff.mpr
  intro x hx
  rcases List.mem_map.mp hx with ⟨q, _, hxq⟩
  rw [← hxq]
  cases hr : requestFor s create_lambda_status_section q with
  | none => rfl
  | some r =>
    rcases requestFor_eq_some s _ q r hr with ⟨full, hok, _, hrEq⟩
    have hne : q.id ≠ pid := by
      intro he
      rw [he, herr] at hok
      cases hok
    have hrid : r.pageId = q.id := by rw [hrEq]; rfl
    simp [Option.toList, List.filter_cons, hrid, hne]

/-- Every branch of the page loop issues the fetch of its page. -/
theorem fetch_mem_processPage (s : Server) (st : String) (q : PageRec) :
    Action.fetch q.id ∈ (processPage s st q).1 := by
  unfold processPage
  cases hc : get_page_content s q.id with
  | mk fo log =>
    cases fo with
    | none => simp
    | some full =>
      by_cases hm : pyIn marker full.body = true <;> simp [hm]

/-- Every listed page is fetched during the run. -/
theorem fetch_mem_main (s : Server) (fuel : Nat) (q : PageRec)
    (hq : q ∈ (get_all_pages_in_space s fuel).1) :
    Action.fetch q.id ∈ (main s fuel).actions := by
  rw [main_actions]
  have hne : (get_all_pages_in_space s fuel).1.isEmpty = false := by
    cases hl : (get_all_pages_in_space s fuel).1 with
    | nil => rw [hl] at hq; exact absurd hq (List.not_mem_nil q)
    | cons a t => rfl
  rw [hne]
  simp only [Bool.false_eq_true, if_false]
  apply List.mem_flatten.mpr
  exact ⟨(processPage s create_lambda_status_section q).1,
    List.mem_map_of_mem _ hq, fetch_mem_processPage s _ q⟩

/-- On a store in which every body already contains the marker, a run
issues no update request at all. -/
theorem allMarked_no_puts (store : List StoredPage) (fuel : Nat)
    (hall : ∀ sp ∈ store, pyIn marker sp.body = true) :
    putRequests (main (serverOfStore store) fuel).actions = [] := by
  rw [putRequests_main]
  apply List.filterMap_eq_nil_iff.mpr
  intro q _
  cases hr : requestFor (serverOfStore store) create_lambda_status_section q with
  | none => rfl
  | some r =>
    rcases requestFor_eq_some _ _ q r hr with ⟨full, hok, hnomark, _⟩
    cases hl : lookupPage store q.id with
    | none =>
      have hfetch : (serverOfStore store).pageContent q.id =
          Except.error { msg := "page not found", responseText := none } := by
        unfold serverOfStore
        dsimp only
        rw [hl]
      rw [hfetch] at hok
      cases hok
    | some sp =>
      have hfetch : (serverOfStore store).pageContent q.id =
          Except.ok { version := sp.version, body := sp.body } := by
        unfold serverOfStore
        dsimp only
        rw [hl]
      rw [hfetch] at hok
      have hsp : sp ∈ store := List.mem_of_find?_eq_some hl
      have hfull : full = { version := sp.version, body := sp.body } :=
        (Except.ok.inj hok).symm
      rw [hfull] at hnomark
      rw [hall sp hsp] at hnomark
      cases hnomark

/-- After a run against a fixture store with distinct page ids, every
stored body contains the marker: pages that already had it were skipped
and kept it, all others received the prepended status block. -/
theorem store2_marked (store : List StoredPage) (fuel : Nat)
    (hnodup : (store.map StoredPage.id).Nodup) (hfuel : 1 ≤ fuel) :
    ∀ q ∈ applyPuts (putRequests (main (serverOfStore store) fuel).actions) store,
      pyIn marker q.body = true := by
  intro q hq
  rcases List.mem_map.mp hq with ⟨sp, hsp, hq2⟩
  rw [← hq2]
  unfold applyPutsTo
  cases hf : (putRequests (main (serverOfStore store) fuel).actions).find?
      (fun r => r.pageId == sp.id) with
  | some r =>
    dsimp only
    exact run_requests_marked _ _ r (List.mem_of_find?_eq_some hf)
  | none =>
    dsimp only
    by_contra hnm
    have hnm' : pyIn marker sp.body = false := by simpa using hnm
    have hpage : ({ id := sp.id, title := sp.title } : PageRec) ∈
        (get_all_pages_in_space (serverOfStore store) fuel).1 := by
      rw [serverOfStore_pages store fuel hfuel]
      exact List.mem_map_of_mem _ hsp
    have hfetch := serverOfStore_pageContent store hnodup sp hsp
    have hreq := requestFor_of_ok (serverOfStore store) create_lambda_status_section
      ({ id := sp.id, title := sp.title } : PageRec)
      ({ version := sp.version, body := sp.body } : FullPage) hfetch hnm'
    have hmem := List.mem_filterMap.mpr ⟨_, hpage, hreq⟩
    rw [← putRequests_main] at hmem
    have hpred := List.find?_eq_none.mp hf _ hmem
    apply hpred
    show ((({ id := sp.id, title := sp.title } : PageRec)).id == sp.id) = true
    exact beq_self_eq_true sp.id

/-- The listing loop on a finite continuation chain collects exactly the
concatenation of the successive result lists. -/
theorem listLoop_chain (s : Server) :
    ∀ (n : Nat) (url : String) (rss : List (List PageRec)),
      chainResults s n url = some rss →
      ∀ (fuel : Nat) (acc : List PageRec), n ≤ fuel →
        listLoop s fuel url acc = Except.ok (acc ++ rss.flatten) := by
  intro n
  induction n with
  | zero =>
    intro url rss h
    simp [chainResults] at h
  | succ n ih =>
    intro url rss h fuel acc hle
    cases fuel with
    | zero => omega
    | succ f =>
      unfold chainResults at h
      unfold listLoop
      cases hresp : s.listResp url with
      | error e =>
        rw [hresp] at h
        simp at h
      | ok r =>
        rw [hresp] at h
        dsimp only at h ⊢
        cases hnext : r.next with
        | none =>
          rw [hnext] at h
          dsimp only at h
          have hrss : [r.results] = rss := Option.some.inj h
          rw [← hrss]
          simp
        | some nxt =>
          rw [hnext] at h
          dsimp only at h
          rcases Option.map_eq_some'.mp h with ⟨rest, hrest, hrss⟩
          dsimp only
          rw [ih _ rest hrest f (acc ++ r.results) (by omega)]
          rw [← hrss]
          simp

/-- The exception-level listing always returns normally, with the value
of the total embedding. -/
theorem get_all_pagesE_ok (s : Server) (fuel : Nat) :
    get_all_pagesE s fuel = Except.ok (get_all_pages_in_space s fuel) := by
  unfold get_all_pagesE get_all_pages_in_space catchRequest liftHttp
  cases h : listLoop s fuel initialListUrl [] with
  | ok ps => rfl
  | error e => rfl

/-- The exception-level single-page fetch always returns normally. -/
theorem get_page_contentE_ok (s : Server) (page_id : String) :
    get_page_contentE s page_id = Except.ok (get_page_content s page_id) := by
  unfold get_page_contentE get_page_content catchRequest liftHttp
  cases h : s.pageContent page_id with
  | ok p => rfl
  | error e => rfl

/-- The exception-level update always returns normally. -/
theorem update_pageE_ok (s : Server) (page_id title content : String) (version : Nat) :
    update_pageE s page_id title content version =
      Except.ok (update_page s page_id title content version) := by
  unfold update_pageE update_page catchRequest liftHttp
  cases h : s.putResult (updatePayload page_id title content version) with
  | ok u => rfl
  | error e => rfl

/-- The exception-level page loop body always returns normally. -/
theorem processPageE_ok (s : Server) (st : String) (q : PageRec) :
    processPageE s st q = Except.ok (processPage s st q) := by
  unfold processPageE processPage
  rw [get_page_contentE_ok]
  cases hc : get_page_content s q.id with
  | mk fo log =>
    cases fo with
    | none => rfl
    | some full =>
      by_cases hm : pyIn marker full.body = true
      · simp only [hm, if_true]
      · simp only [hm, if_false]
        rw [update_pageE_ok]
        simp

/-- The exception-level page loop always returns normally, page by page. -/
theorem runPagesE_ok (s : Server) (st : String) :
    ∀ l : List PageRec,
      runPagesE s st l = Except.ok (l.map (processPage s st)) := by
  intro l
  induction l with
  | nil => rfl
  | cons q rest ih =>
    unfold runPagesE
    rw [processPageE_ok, ih]
    rfl

/-- C1: for every page whose fetched body does not contain the marker
substring and is listed exactly once, a successful run issues exactly one
update for that page, whose submitted body is the constant status block,
then the separator, then the previous body (a prepend), and whose
submitted version number is the fetched version plus one. -/
theorem C1_unmarked_single_prepend_update (s : Server) (fuel : Nat) (p : PageRec)
    (full : FullPage)
    (hmem : p ∈ (get_all_pages_in_space s fuel).1)
    (hcount : (get_all_pages_in_space s fuel).1.countP (fun q => q.id == p.id) = 1)
    (hfetch : s.pageContent p.id = Except.ok full)
    (hnomark : pyIn marker full.body = false) :
    putsFor p.id (main s fuel).actions =
      [updatePayload p.id p.title
        (create_lambda_status_section ++ "\n\n" ++ full.body) full.version] ∧
    (updatePayload p.id p.title
      (create_lambda_status_section ++ "\n\n" ++ full.body)
      full.version).body.storage.value =
        create_lambda_status_section ++ "\n\n" ++ full.body ∧
    (updatePayload p.id p.title
      (create_lambda_status_section ++ "\n\n" ++ full.body)
      full.version).version.number = full.version + 1 :=
  ⟨update_for_unmarked s fuel p full hmem hcount hfetch hnomark, rfl, rfl⟩

/-- Witness for C1 on the fixture: Page A gets exactly the one prepending
update at version 3 + 1. -/
theorem C1_witness :
    putsFor "1001" (main demoServer 1).actions =
      [updatePayload "1001" "Page A"
        (create_lambda_status_section ++ "\n\n" ++ "<p>old</p>") 3] :=
  (C1_unmarked_single_prepend_update demoServer 1
    { id := "1001", title := "Page A" } { version := 3, body := "<p>old</p>" }
    (by decide) (by decide) rfl (by decide)).1

/-- C2: a page whose fetched body already contains the marker substring
receives no update request during the run and is unchanged afterwards;
the guard is the plain substring containment test `pyIn`. -/
theorem C2_marked_page_skipped (store : List StoredPage) (fuel : Nat)
    (p : StoredPage)
    (hnodup : (store.map StoredPage.id).Nodup)
    (hmem : p ∈ store)
    (hmark : pyIn marker p.body = true)
    (hfuel : 1 ≤ fuel) :
    putsFor p.id (main (serverOfStore store) fuel).actions = [] ∧
    lookupPage (applyPuts (putRequests (main (serverOfStore store) fuel).actions)
      store) p.id = some p := by
  have h1 : putsFor p.id (main (serverOfStore store) fuel).actions = [] := by
    rw [putsFor_main]
    apply List.flatten_eq_nil_iff.mpr
    intro x hx
    rcases List.mem_map.mp hx with ⟨q, hqmem, hxq⟩
    rw [← hxq]
    cases hr : requestFor (serverOfStore store) create_lambda_status_section q with
    | none => rfl
    | some r =>
      rcases requestFor_eq_some _ _ q r hr with ⟨full, hok, hnomark, hrEq⟩
      have hne : q.id ≠ p.id := by
        intro he
        have hfetch := serverOfStore_pageContent store hnodup p hmem
        rw [he, hfetch] at hok
        have hfull : full = { version := p.version, body := p.body } :=
          (Except.ok.inj hok).symm
        rw [hfull] at hnomark
        dsimp only at hnomark
        rw [hmark] at hnomark
        cases hnomark
      have hrid : r.pageId = q.id := by rw [hrEq]; rfl
      simp [Option.toList, List.filter_cons, hrid, hne]
  have h2 : (putRequests (main (serverOfStore store) fuel).actions).find?
      (fun r => r.pageId == p.id) = none := by
    apply List.find?_eq_none.mpr
    intro r hrmem hbeq
    have hmem2 : r ∈ putsFor p.id (main (serverOfStore store) fuel).actions := by
      unfold putsFor
      exact List.mem_filter.mpr ⟨hrmem, hbeq⟩
    rw [h1] at hmem2
    exact absurd hmem2 (List.not_mem_nil r)
  have h3 : applyPutsTo (putRequests (main (serverOfStore store) fuel).actions) p
      = p := by
    unfold applyPutsTo
    rw [h2]
  refine ⟨h1, ?_⟩
  rw [lookupPage_applyPuts, lookupPage_of_nodup store hnodup p hmem]
  simp [h3]

/-- Witness for C2 on the fixture: Page B, whose body contains the
marker, receives no update and is unchanged after the run. -/
theorem C2_witness :
    putsFor "1002" (main (serverOfStore demoStore) 1).actions = [] ∧
    lookupPage (applyPuts (putRequests (main (serverOfStore demoStore) 1).actions)
      demoStore) "1002" = some demoB :=
  C2_marked_page_skipped demoStore 1 demoB (by decide) (by decide) (by decide)
    (by decide)

/-- C3: a second run against the state left by a first run (all writes
applied, nothing else modified) issues zero update requests, because
after the first run every stored body contains the marker. -/
theorem C3_second_run_no_writes (store : List StoredPage) (fuel : Nat)
    (hnodup : (store.map StoredPage.id).Nodup) (hfuel : 1 ≤ fuel) :
    putRequests (main (serverOfStore
      (applyPuts (putRequests (main (serverOfStore store) fuel).actions) store))
        fuel).actions = [] ∧
    ∀ q ∈ applyPuts (putRequests (main (serverOfStore store) fuel).actions) store,
      pyIn marker q.body = true := by
  have h2 := store2_marked store fuel hnodup hfuel
  exact ⟨allMarked_no_puts _ fuel h2, h2⟩

/-- Witness for C3 on the fixture: the second run issues no update. -/
theorem C3_witness :
    putRequests (main (serverOfStore
      (applyPuts (putRequests (main (serverOfStore demoStore) 1).actions)
        demoStore)) 1).actions = [] :=
  (C3_second_run_no_writes demoStore 1 (by decide) (by decide)).1

/-- C4: on a server whose continuation chain from the initial listing URL
is finite, the listing terminates (its value is reached with any
sufficient fuel) and returns the concatenation of the result lists of
all continuation responses, with no error log. -/
theorem C4_listing_follows_chain (s : Server) (n fuel : Nat)
    (rss : List (List PageRec))
    (hchain : chainResults s n initialListUrl = some rss)
    (hfuel : n ≤ fuel) :
    get_all_pages_in_space s fuel = (rss.flatten, []) := by
  unfold get_all_pages_in_space
  rw [listLoop_chain s n initialListUrl rss hchain fuel [] hfuel]
  rw [List.nil_append]

/-- Witness for C4 on the two-response fixture server. -/
theorem C4_witness :
    get_all_pages_in_space pagedServer 2 =
      ([{ id := "1", title := "A" }, { id := "2", title := "B" }], []) :=
  C4_listing_follows_chain pagedServer 2 2
    [[{ id := "1", title := "A" }], [{ id := "2", title := "B" }]]
    (by decide) (by decide)

/-- C5: the update payload carries version `knownVersion + 1` and the
full new body; `update_page` returns true exactly when the PUT succeeds;
on failure it returns false (without raising) and logs the error and the
response text of the server when present; and every listed page is still
processed. -/
theorem C5_update_page_contract (s : Server) (page_id t content : String)
    (version : Nat) :
    (updatePayload page_id t content version).version.number = version + 1 ∧
    (updatePayload page_id t content version).body.storage.value = content ∧
    ((update_page s page_id t content version).1 = true ↔
      s.putResult (updatePayload page_id t content version) = Except.ok ()) ∧
    (∀ e : HttpErr,
      s.putResult (updatePayload page_id t content version) = Except.error e →
        (update_page s page_id t content version).1 = false ∧
        ("❌ Error updating page " ++ t ++ ": " ++ e.msg)
          ∈ (update_page s page_id t content version).2 ∧
        ∀ rt : String, e.responseText = some rt →
          ("   Response: " ++ rt) ∈ (update_page s page_id t content version).2) ∧
    (∀ (fuel : Nat) (q : PageRec), q ∈ (get_all_pages_in_space s fuel).1 →
      Action.fetch q.id ∈ (main s fuel).actions) := by
  refine ⟨rfl, rfl, ?_, ?_, fun fuel q hq => fetch_mem_main s fuel q hq⟩
  · unfold update_page
    cases hput : s.putResult (updatePayload page_id t content version) with
    | ok u =>
      cases u
      simp
    | error e =>
      simp
  · intro e hput
    unfold update_page
    rw [hput]
    dsimp only
    refine ⟨rfl, by simp, ?_⟩
    intro rt hrt
    rw [hrt]
    simp

/-- Witness for C5 on the failing fixture server: the update reports
failure and logs the error line. -/
theorem C5_witness :
    (update_page failServer "9" "T" "c" 3).1 = false ∧
    ("❌ Error updating page " ++ "T" ++ ": " ++ "boom")
      ∈ (update_page failServer "9" "T" "c" 3).2 := by
  have h := (C5_update_page_contract failServer "9" "T" "c" 3).2.2.2.1
    { msg := "boom", responseText := some "srv text" } rfl
  exact ⟨h.1, h.2.1⟩

/-- C6: a transport/HTTP error during listing makes the listing log the
error and return the empty result, and the whole run degrades to a
no-op: no fetch and no update request is issued. -/
theorem C6_listing_error_noop (s : Server) (fuel : Nat) (e : HttpErr)
    (herr : listLoop s fuel initialListUrl [] = Except.error e) :
    get_all_pages_in_space s fuel = ([], ["Error fetching pages: " ++ e.msg]) ∧
    (main s fuel).actions = [] ∧
    (main s fuel).log =
      ["Error fetching pages: " ++ e.msg, "❌ No pages found or error occurred"] := by
  have hg : get_all_pages_in_space s fuel =
      ([], ["Error fetching pages: " ++ e.msg]) := by
    unfold get_all_pages_in_space
    rw [herr]
  refine ⟨hg, ?_, ?_⟩
  · rw [main_actions]
    simp [hg]
  · unfold main
    rw [hg]
    rfl

/-- Witness for C6 on the failing fixture server. -/
theorem C6_witness :
    (main failServer 1).actions = [] ∧
    (main failServer 1).log =
      ["Error fetching pages: " ++ "boom", "❌ No pages found or error occurred"] := by
  have h := C6_listing_error_noop failServer 1 { msg := "boom", responseText := none }
    rfl
  exact ⟨h.2.1, h.2.2⟩

/-- C7: a transport/HTTP error fetching one page makes the fetch log and
return the absent value, the run issues no update for that page, every
listed page is still fetched, and any other page that fetches cleanly
without the marker still receives its normal single update. -/
theorem C7_fetch_error_skips_page (s : Server) (fuel : Nat) (p : PageRec)
    (e : HttpErr) (herr : s.pageContent p.id = Except.error e) :
    get_page_content s p.id =
      (none, ["Error fetching page " ++ p.id ++ ": " ++ e.msg]) ∧
    putsFor p.id (main s fuel).actions = [] ∧
    (∀ q ∈ (get_all_pages_in_space s fuel).1,
      Action.fetch q.id ∈ (main s fuel).actions) ∧
    (∀ (q : PageRec) (fq : FullPage),
      q ∈ (get_all_pages_in_space s fuel).1 →
      (get_all_pages_in_space s fuel).1.countP (fun x => x.id == q.id) = 1 →
      s.pageContent q.id = Except.ok fq →
      pyIn marker fq.body = false →
      putsFor q.id (main s fuel).actions =
        [updatePayload q.id q.title
          (create_lambda_status_section ++ "\n\n" ++ fq.body) fq.version]) := by
  refine ⟨?_, putsFor_nil_of_fetch_fail s fuel p.id e herr,
    fun q hq => fetch_mem_main s fuel q hq,
    fun q fq hq hcount hfetch hnomark =>
      update_for_unmarked s fuel q fq hq hcount hfetch hnomark⟩
  unfold get_page_content
  rw [herr]

/-- Witness for C7 on the fixture with a failing fetch of Page A. -/
theorem C7_witness :
    get_page_content fetchFailServer "1001" =
      (none, ["Error fetching page " ++ "1001" ++ ": " ++ "down"]) ∧
    putsFor "1001" (main fetchFailServer 1).actions = [] := by
  have h := C7_fetch_error_skips_page fetchFailServer 1
    { id := "1001", title := "Page A" } { msg := "down", responseText := none } rfl
  exact ⟨h.1, h.2.1⟩

/-- C8: for every server behaviour and fuel, the exception-level run
returns normally (no raised error escapes `main`), with the value of the
total embedding: every error is absorbed where the source catches it. -/
theorem C8_errors_absorbed (s : Server) (fuel : Nat) :
    mainE s fuel = Except.ok (main s fuel) := by
  unfold mainE main
  rw [get_all_pagesE_ok]
  rcases hg : get_all_pages_in_space s fuel with ⟨pages, llog⟩
  dsimp only
  by_cases hp : pages.isEmpty
  · simp [hp]
  · simp [hp, runPagesE_ok]

/-- Witness for C8 on the fixture server. -/
theorem C8_witness : mainE demoServer 1 = Except.ok (main demoServer 1) :=
  C8_errors_absorbed demoServer 1

/-- C9: the marker substring tested by the skip guard occurs in the
constant status block, so every submitted update body contains the
marker. -/
theorem C9_marker_in_status_block :
    pyIn marker create_lambda_status_section = true ∧
    ∀ (s : Server) (fuel : Nat) (r : UpdateRequest),
      r ∈ putRequests (main s fuel).actions →
        pyIn marker r.body.storage.value = true :=
  ⟨marker_in_status, fun s fuel r hr => run_requests_marked s fuel r hr⟩

/-- Witness for C9: the containment fact itself. -/
theorem C9_witness : pyIn marker create_lambda_status_section = true :=
  C9_marker_in_status_block.1

/-- C10: every issued update request carries the listing title for its
page id and the fixed type `page`, and applying updates never changes
the id or title of any page. -/
theorem C10_title_type_preserved :
    (∀ (s : Server) (fuel : Nat) (r : UpdateRequest),
      r ∈ putRequests (main s fuel).actions →
        r.type = "page" ∧ ∃ q, q ∈ (get_all_pages_in_space s fuel).1 ∧
          q.id = r.pageId ∧ q.title = r.title) ∧
    (∀ (reqs : List UpdateRequest) (store : List StoredPage),
      (applyPuts reqs store).map (fun sp => (sp.id, sp.title)) =
        store.map (fun sp => (sp.id, sp.title))) := by
  constructor
  · intro s fuel r hr
    rw [putRequests_main] at hr
    rcases List.mem_filterMap.mp hr with ⟨q, hq, hreq⟩
    rcases requestFor_eq_some _ _ q r hreq with ⟨full, _, _, hrEq⟩
    exact ⟨by rw [hrEq]; rfl, q, hq, by rw [hrEq]; rfl, by rw [hrEq]; rfl⟩
  · intro reqs store
    unfold applyPuts
    rw [List.map_map]
    apply List.map_congr_left
    intro sp _
    simp [Function.comp, applyPutsTo_id, applyPutsTo_title]

/-- Witness for C10: applying an empty set of updates preserves every id
and title on the fixture store. -/
theorem C10_witness :
    (applyPuts [] demoStore).map (fun sp => (sp.id, sp.title)) =
      demoStore.map (fun sp => (sp.id, sp.title)) :=
  C10_title_type_preserved.2 [] demoStore

end UpdateConfluence
